import Mathlib

/-!
Shallow embedding of the active-streaming lifecycle controller
(src/rtsp/states/streaming.rs) and proofs about its lifecycle operations.

The controller owns a worker registry (one join handle per sub-stream), an
output registry (one shared, mutex-guarded sink handle per sub-stream) and a
shared cancellation token.  We embed:
  - the three sub-stream identifiers as a closed enumeration;
  - each registry as a total function from sub-stream to an optional entry
    (the source uses a HashMap over the three-valued key type; iteration
    order of the HashMap is arbitrary, we fix the order Main, Sub, Extn);
  - an Arc-wrapped sink as the sink value together with a count of the
    holders other than the controller registry itself (worker threads hold
    clones; Arc try_unwrap succeeds exactly when that count is zero);
  - setup (activate) as a function that also returns a trace of the threads
    it spawned and the registry registrations it performed, so that
    spawn-then-discard behaviour is observable;
  - tear_down (deactivate) and take_outputs with the source's early-return
    structure, including the fact that dropping a HashMap Drain iterator
    midway removes the remaining entries.
External collaborators (the gstreamer sink, the RTSP registry, the camera)
are parameters of the shared context, exactly the capabilities the source
calls on them.
-/

deriving instance DecidableEq for Except

namespace NeolinkStreaming

/-- The sub-stream identifiers, from neolink_core bc_protocol Stream.
The third variant is called Extern in the source. -/
inductive Stream
  | Main
  | Sub
  | Extn
deriving DecidableEq, Repr, Fintype

/-- Paused placeholder sources, from crate rtsp gst PausedSources. -/
inductive PausedSources
  | TestSrc
  | Still
  | Black
  | None
deriving DecidableEq, Repr

/-- Input modes of a sink, from crate rtsp gst InputMode. -/
inductive InputMode
  | Live
  | Paused
deriving DecidableEq, Repr

/-- Model of the externally implemented gstreamer output sink (GstOutputs):
the pieces of its state the controller reads or writes, plus the trace of
video units it has accepted (stream_recv).  Video units are modelled as
naturals. -/
structure GstOutputs where
  pausedSource : Option PausedSources := Option.none
  inputMode : Option InputMode := Option.none
  connected : Bool := false
  hasLastIframe : Bool := false
  received : List Nat := []
deriving DecidableEq, Repr

/-- An Arc-Mutex-wrapped sink as stored in the output registry.
extraHolders counts the holders of the shared handle other than the
registry entry itself (each spawned worker thread holds one clone until the
thread terminates and is joined).  Arc try_unwrap succeeds exactly when
extraHolders is zero. -/
structure OutputCell where
  out : GstOutputs
  extraHolders : Nat := 0
deriving DecidableEq, Repr

/-- The terminal result a worker thread produces, as seen by join:
Ok(Ok(())), Ok(Err(e)) or Err (the thread panicked). -/
inductive JoinOutcome
  | ok
  | err (e : String)
  | panicked
deriving DecidableEq, Repr

/-- A recorded worker: the join handle for the thread streaming one
sub-stream.  finished models JoinHandle is_finished; outcome is the
terminal result join will return. -/
structure Worker where
  stream : Stream
  finished : Bool := false
  outcome : JoinOutcome := JoinOutcome.ok
deriving DecidableEq, Repr

/-- The Streaming controller state: worker registry, output registry and
the cancellation token (abortLive is true when the token is live). -/
structure Streaming where
  handles : Stream → Option Worker
  outputs : Stream → Option OutputCell
  abortLive : Bool

/-- The shared context handed to setup and tear_down: configuration plus
the externally implemented collaborators (RTSP registry, sink input-mode
switch, the outcome each spawned camera thread will eventually produce). -/
structure Shared where
  streams : List Stream
  pauseMode : String
  permittedUsers : List String := []
  getPaths : Stream → List String
  getAllPaths : List String
  addStream : List String → List String → Except String GstOutputs
  removeStream : String → Option String
  setInputSource : GstOutputs → InputMode → Except String GstOutputs
  workerOutcome : Stream → JoinOutcome

/-- Fixed iteration order for the three-keyed registries. -/
def streamOrder : List Stream := [Stream.Main, Stream.Sub, Stream.Extn]

/-- Point update of a registry. -/
def mapUpdate {α : Type} (m : Stream → Option α) (k : Stream) (v : α) :
    Stream → Option α :=
  fun st => if st = k then some v else m st

/-- outputs.is_empty() -/
def Streaming.outputsEmpty (s : Streaming) : Bool :=
  streamOrder.all fun st => (s.outputs st).isNone

/-- handles.is_empty() -/
def Streaming.handlesEmpty (s : Streaming) : Bool :=
  streamOrder.all fun st => (s.handles st).isNone

/-- The pause-mode match at the top of setup; the fall-through arm of the
source is an unreachable panic, modelled as Option.none. -/
def resolvePausedSource (mode : String) : Option PausedSources :=
  if mode = "test" then some PausedSources.TestSrc
  else if mode = "still" then some PausedSources.Still
  else if mode = "black" then some PausedSources.Black
  else if mode = "none" then some PausedSources.None
  else Option.none

/-- Failure channel of setup: the unreachable panic on a bad pause mode,
the unwrap panic on an add_stream rejection (carrying the registry error),
or an ordinary error propagated from set_input_source. -/
inductive SetupErr
  | panicUnreachable
  | panicUnwrap (e : String)
  | err (e : String)
deriving DecidableEq, Repr

/-- Trace of the observable actions setup performed: the sub-streams for
which a worker thread was spawned, and the sub-streams for which
add_stream was called on the RTSP registry. -/
structure SetupTrace where
  spawned : List Stream
  registered : List Stream
deriving DecidableEq, Repr

/-- The output-creation loop of setup (the outputs.is_empty branch):
for each configured stream, if no entry exists, call add_stream on the
registry with the stream paths and permitted users; a rejection hits the
unwrap and aborts the loop; on success the sink gets the paused source and
is stored.  Returns the new registry, the registered trace and the first
rejection if any. -/
def createOutputs (sh : Shared) (ps : PausedSources) :
    (Stream → Option OutputCell) → List Stream →
    (Stream → Option OutputCell) × List Stream × Option String
  | outs, [] => (outs, [], Option.none)
  | outs, st :: rest =>
    match outs st with
    | some _ => createOutputs sh ps outs rest
    | Option.none =>
      match sh.addStream (sh.getPaths st) sh.permittedUsers with
      | Except.error e => (outs, [st], some e)
      | Except.ok o =>
        match
          createOutputs sh ps
            (mapUpdate outs st { out := { o with pausedSource := some ps } })
            rest
        with
        | (outs2, reg, r) => (outs2, st :: reg, r)

/-- Phase one of setup: if the output registry is empty, resolve the pause
mode (panicking on an unrecognized value) and create the outputs. -/
def setupPhase1 (sh : Shared) (s : Streaming) :
    Streaming × List Stream × Option SetupErr :=
  if s.outputsEmpty then
    match resolvePausedSource sh.pauseMode with
    | Option.none => (s, [], some SetupErr.panicUnreachable)
    | some ps =>
      match createOutputs sh ps s.outputs sh.streams with
      | (outs, reg, r) =>
        ({ s with outputs := outs }, reg, r.map SetupErr.panicUnwrap)
  else (s, [], Option.none)

/-- One iteration of the spawn loop on a stream with a present output:
the sink input mode has been switched to live (newOut), the spawned thread
takes a clone of the shared handle (holder count up by one), and the
handle is recorded only if the slot is free (entry or_insert_with);
otherwise the new handle is discarded. -/
def spawnStep (sh : Shared) (s : Streaming) (st : Stream) (cell : OutputCell)
    (newOut : GstOutputs) : Streaming :=
  { s with
    outputs :=
      mapUpdate s.outputs st { out := newOut, extraHolders := cell.extraHolders + 1 },
    handles := fun x =>
      if x = st then
        some ((s.handles st).getD
          { stream := st, finished := false, outcome := sh.workerOutcome st })
      else s.handles x }

/-- The worker-spawn loop of setup: for every (stream, output) pair in the
output registry, set the sink input mode to live (propagating a failure),
spawn the worker thread (which increments the shared-handle holder count
and appears in the spawn trace), then record the handle only if none is
recorded: handles.entry(stream).or_insert_with.  When a handle is already
recorded the freshly spawned thread is discarded, so its holder of the
shared sink remains. -/
def spawnLoop (sh : Shared) :
    Streaming → List Stream → Streaming × List Stream × Option SetupErr
  | s, [] => (s, [], Option.none)
  | s, st :: rest =>
    match s.outputs st with
    | Option.none => spawnLoop sh s rest
    | some cell =>
      match sh.setInputSource cell.out InputMode.Live with
      | Except.error e => (s, [], some (SetupErr.err e))
      | Except.ok newOut =>
        match spawnLoop sh (spawnStep sh s st cell newOut) rest with
        | (s2, sp, r) => (s2, st :: sp, r)

/-- CameraState setup (activate): reset the cancellation token, create the
outputs if the registry is empty, then run the spawn loop. -/
def setup (sh : Shared) (s : Streaming) :
    Streaming × SetupTrace × Option SetupErr :=
  match setupPhase1 sh { s with abortLive := true } with
  | (s1, reg, some e) => (s1, { spawned := [], registered := reg }, some e)
  | (s1, reg, Option.none) =>
    match spawnLoop sh s1 streamOrder with
    | (s2, sp, r) => (s2, { spawned := sp, registered := reg }, r)

/-- The path-unregistration loop of tear_down: remove_stream on each
configured path, returning the first rejection together with its path. -/
def removeLoop (sh : Shared) : List String → Option (String × String)
  | [] => Option.none
  | p :: rest =>
    match sh.removeStream p with
    | some e => some (p, e)
    | Option.none => removeLoop sh rest

/-- The error message built by tear_down for a remove_stream rejection. -/
def removeErrMsg (p e : String) : String :=
  "Failed to shutdown RTSP Path " ++ p ++ ": " ++ e

/-- The join error message for a panicked worker. -/
def panickedMsg (st : Stream) : String :=
  "Panicked while streaming " ++ (match st with
    | Stream.Main => "Main"
    | Stream.Sub => "Sub"
    | Stream.Extn => "Extn")

/-- Dropping a HashMap Drain iterator midway removes the remaining
entries: any early return inside a drain loop leaves the map empty. -/
def dropHandles (s : Streaming) : Streaming :=
  { s with handles := fun _ => Option.none }

/-- Joining a worker releases its clone of the shared sink handle. -/
def decHolders (outs : Stream → Option OutputCell) (st : Stream) :
    Stream → Option OutputCell :=
  fun x =>
    if x = st then
      (outs x).map fun c => { out := c.out, extraHolders := c.extraHolders - 1 }
    else outs x

/-- Removing one worker from the registry and joining it, which releases
the worker thread clone of the shared sink handle. -/
def joinStep (s : Streaming) (st : Stream) : Streaming :=
  { s with
    handles := fun x => if x = st then Option.none else s.handles x,
    outputs := decHolders s.outputs st }

/-- The handles.drain() join loop shared by tear_down and take_outputs:
each visited worker is removed from the registry and joined (releasing its
holder of the sink); an Ok(Err e) or panicked outcome returns that failure
at once.  The early return drops the Drain iterator, clearing the map, but
the workers that were not joined keep their holders of the shared sinks. -/
def joinDrain : Streaming → List Stream → Streaming × Option String
  | s, [] => (s, Option.none)
  | s, st :: rest =>
    match s.handles st with
    | Option.none => joinDrain s rest
    | some w =>
      match w.outcome with
      | JoinOutcome.ok => joinDrain (joinStep s st) rest
      | JoinOutcome.err e => (dropHandles (joinStep s st), some e)
      | JoinOutcome.panicked =>
        (dropHandles (joinStep s st), some (panickedMsg st))

/-- CameraState tear_down (deactivate): abort the cancellation token; if
workers are recorded, unregister every configured path (a rejection
returns at once, before any join) and then join the drained workers. -/
def tear_down (sh : Shared) (s : Streaming) : Streaming × Option String :=
  if Streaming.handlesEmpty { s with abortLive := false } then
    ({ s with abortLive := false }, Option.none)
  else
    match removeLoop sh sh.getAllPaths with
    | some pe => ({ s with abortLive := false }, some (removeErrMsg pe.1 pe.2))
    | Option.none => joinDrain { s with abortLive := false } streamOrder

/-- The outputs.drain() loop of take_outputs: Arc try_unwrap each cell,
which fails when another holder of the shared handle remains. -/
def unwrapDrain :
    (Stream → Option OutputCell) → List Stream →
    Except String (Stream → Option GstOutputs)
  | _, [] => Except.ok fun _ => Option.none
  | outs, st :: rest =>
    match outs st with
    | Option.none => unwrapDrain outs rest
    | some cell =>
      if cell.extraHolders = 0 then
        match unwrapDrain outs rest with
        | Except.error e => Except.error e
        | Except.ok m => Except.ok (mapUpdate m st cell.out)
      else Except.error "Failed to unwrap ARC"

/-- Streaming take_outputs (extract_outputs): abort, join and drain all
recorded workers, then drain the output registry converting each shared
handle into an exclusively owned sink. -/
def take_outputs (s : Streaming) :
    Streaming × Except String (Stream → Option GstOutputs) :=
  match joinDrain { s with abortLive := false } streamOrder with
  | (s1, some e) => (s1, Except.error e)
  | (s1, Option.none) =>
    ({ handles := s1.handles, outputs := fun _ => Option.none,
       abortLive := s1.abortLive },
      unwrapDrain s1.outputs streamOrder)

/-- Streaming insert_outputs (adopt_outputs): wrap each adopted sink in a
fresh shared handle and install the mapping as the output registry. -/
def insert_outputs (m : Stream → Option GstOutputs) (s : Streaming) :
    Streaming :=
  { s with outputs := fun st => (m st).map fun o => { out := o } }

/-- Streaming is_running. -/
def is_running (s : Streaming) : Bool :=
  (streamOrder.all fun st =>
    match s.handles st with
    | some w => !w.finished
    | Option.none => true) && s.abortLive

/-- Streaming client_connected. -/
def client_connected (s : Streaming) : Bool :=
  streamOrder.any fun st =>
    match s.outputs st with
    | some c => c.out.connected
    | Option.none => false

/-- Streaming can_pause. -/
def can_pause (s : Streaming) : Bool :=
  streamOrder.all fun st =>
    match s.outputs st with
    | some c => c.out.hasLastIframe
    | Option.none => true

/-- Forwarding a list of already-decoded units into the sink in order,
stopping at the first rejection: the fold underlying the batch loop. -/
def forwardList (recv : GstOutputs → Nat → Except String GstOutputs) :
    GstOutputs → List Nat → Except String GstOutputs
  | out, [] => Except.ok out
  | out, v :: rest =>
    match recv out v with
    | Except.error e => Except.error e
    | Except.ok out2 => forwardList recv out2 rest

/-- The inner batch loop of the worker thread: for each datum in the
fetched batch, in order, propagate a feed error, else forward the unit
into the sink (stream_recv, modelled by the recv parameter) and propagate
a rejection.  Returns the final sink state, the trace of units actually
forwarded, and the failure the worker terminates with, if any. -/
def runBatch (recv : GstOutputs → Nat → Except String GstOutputs) :
    GstOutputs → List (Except String Nat) →
    GstOutputs × List Nat × Option String
  | out, [] => (out, [], Option.none)
  | out, Except.error e :: _ => (out, [], some e)
  | out, Except.ok v :: rest =>
    match recv out v with
    | Except.error e => (out, [], some e)
    | Except.ok out2 =>
      match runBatch recv out2 rest with
      | (out3, tr, r) => (out3, v :: tr, r)

/-- The number of holders of the shared sink handle of a sub-stream that
would remain after the recorded worker, if any, is joined. -/
def postJoinHolders (s : Streaming) (st : Stream) : Nat :=
  match s.outputs st with
  | Option.none => 0
  | some cell => cell.extraHolders - (if (s.handles st).isSome then 1 else 0)

/-- Whether the RTSP registry accepts the registration for a stream. -/
def addOk (sh : Shared) (st : Stream) : Bool :=
  match sh.addStream (sh.getPaths st) sh.permittedUsers with
  | Except.ok _ => true
  | Except.error _ => false

/-- A concrete sink-forwarding function for witnesses: appends the unit to
the received trace, rejecting one designated bad unit. -/
def recvGuarded (bad : Nat) (o : GstOutputs) (v : Nat) : Except String GstOutputs :=
  if v = bad then Except.error "sink rejected unit"
  else Except.ok { o with received := o.received ++ [v] }

/-- A controller with empty registries and a live token. -/
def emptyState : Streaming :=
  { handles := fun _ => Option.none
    outputs := fun _ => Option.none
    abortLive := true }

/-- A concrete shared context whose collaborators all succeed, with one
configured sub-stream. -/
def shGood : Shared :=
  { streams := [Stream.Sub]
    pauseMode := "none"
    getPaths := fun _ => ["path-sub"]
    getAllPaths := ["path-sub"]
    addStream := fun _ _ => Except.ok {}
    removeStream := fun _ => Option.none
    setInputSource := fun o m => Except.ok { o with inputMode := some m }
    workerOutcome := fun _ => JoinOutcome.ok }

/-- The same context with a registry that rejects every registration. -/
def shReject : Shared :=
  { shGood with addStream := fun _ _ => Except.error "add rejected: path-sub" }

/-- The same context with a registry that rejects every unregistration. -/
def shRemoveReject : Shared :=
  { shGood with removeStream := fun _ => some "still in use" }

/-- The controller after one successful activation from the empty state. -/
def runningState : Streaming := (setup shGood emptyState).1

/-- A concrete adopted-output mapping for witnesses. -/
def adoptedMap : Stream → Option GstOutputs :=
  fun st => if st = Stream.Sub then some {} else Option.none

/-- Every stream is in the fixed iteration order. -/
theorem mem_streamOrder (st : Stream) : st ∈ streamOrder := by
  cases st <;> simp [streamOrder]

/-- C10: for every controller state whose output registry is empty,
client_connected returns false and can_pause returns true (the
universally quantified keyframe check over the sinks is vacuous). -/
theorem empty_outputs_queries (s : Streaming)
    (h : ∀ st, s.outputs st = Option.none) :
    client_connected s = false ∧ can_pause s = true := by
  refine ⟨?_, ?_⟩ <;> simp [client_connected, can_pause, streamOrder, h]

theorem empty_outputs_queries_witness :
    (∀ st, emptyState.outputs st = Option.none) ∧
      client_connected emptyState = false ∧ can_pause emptyState = true :=
  ⟨fun _ => rfl, empty_outputs_queries emptyState fun _ => rfl⟩

/-- C9: the configured pause mode is resolved inside the closed set of
strings test, still, black, none to the corresponding paused source; any
string outside the set hits the unreachable arm, so activation from an
empty output registry fails fast with the unreachable panic, spawning no
worker and registering nothing; for strings inside the set that arm is
never reached (resolution succeeds). -/
theorem paused_mode_closed_set (mode : String) :
    ((resolvePausedSource mode).isSome = true ↔
      mode ∈ ["test", "still", "black", "none"]) ∧
    resolvePausedSource "test" = some PausedSources.TestSrc ∧
    resolvePausedSource "still" = some PausedSources.Still ∧
    resolvePausedSource "black" = some PausedSources.Black ∧
    resolvePausedSource "none" = some PausedSources.None ∧
    (∀ sh s, resolvePausedSource sh.pauseMode = Option.none →
      (∀ st, s.outputs st = Option.none) →
      (setup sh s).2.2 = some SetupErr.panicUnreachable ∧
        (setup sh s).2.1.spawned = [] ∧ (setup sh s).2.1.registered = []) := by
  refine ⟨?_, by decide, by decide, by decide, by decide, ?_⟩
  · unfold resolvePausedSource
    split_ifs with h1 h2 h3 h4 <;> simp_all
  · intro sh s hmode houts
    have hempty : Streaming.outputsEmpty { s with abortLive := true } = true := by
      simp [Streaming.outputsEmpty, streamOrder, houts]
    simp [setup, setupPhase1, hempty, hmode]

theorem paused_mode_closed_set_witness :
    ((resolvePausedSource "garbage").isSome = true ↔
      "garbage" ∈ ["test", "still", "black", "none"]) ∧
      ((setup { shGood with pauseMode := "garbage" } emptyState).2.2 =
          some SetupErr.panicUnreachable ∧
        (setup { shGood with pauseMode := "garbage" } emptyState).2.1.spawned = [] ∧
        (setup { shGood with pauseMode := "garbage" } emptyState).2.1.registered = []) :=
  ⟨(paused_mode_closed_set "garbage").1,
    (paused_mode_closed_set "garbage").2.2.2.2.2
      { shGood with pauseMode := "garbage" } emptyState (by decide) fun _ => rfl⟩

/-- C7: within one fetched batch the worker forwards units into the sink
strictly in fetch order, and a forwarding failure terminates the worker at
once with that failure: the forwarded trace is exactly the prefix before
the failing unit and the result does not depend on the rest of the batch. -/
theorem worker_batch_order (recv : GstOutputs → Nat → Except String GstOutputs)
    (out out' : GstOutputs) (pre : List Nat) (v : Nat) (e : String)
    (post : List (Except String Nat))
    (hpre : forwardList recv out pre = Except.ok out')
    (hv : recv out' v = Except.error e) :
    runBatch recv out (pre.map Except.ok ++ Except.ok v :: post) =
        (out', pre, some e) ∧
      runBatch recv out (pre.map Except.ok) = (out', pre, Option.none) := by
  induction pre generalizing out with
  | nil =>
    simp only [forwardList, Except.ok.injEq] at hpre
    subst hpre
    simp [runBatch, hv]
  | cons a rest ih =>
    simp only [forwardList] at hpre
    cases hrecv : recv out a with
    | error e2 => rw [hrecv] at hpre; cases hpre
    | ok out2 =>
      rw [hrecv] at hpre
      have h2 := ih out2 hpre
      simp [runBatch, hrecv, h2.1, h2.2]

theorem worker_batch_order_witness :
    forwardList (recvGuarded 5) {} [1, 2] = Except.ok { received := [1, 2] } ∧
      recvGuarded 5 { received := [1, 2] } 5 = Except.error "sink rejected unit" ∧
      (runBatch (recvGuarded 5) {}
            ([1, 2].map Except.ok ++ Except.ok 5 :: [Except.ok 9]) =
          ({ received := [1, 2] }, [1, 2], some "sink rejected unit") ∧
        runBatch (recvGuarded 5) {} ([1, 2].map Except.ok) =
          ({ received := [1, 2] }, [1, 2], Option.none)) :=
  ⟨by decide, by decide,
    worker_batch_order (recvGuarded 5) {} { received := [1, 2] } [1, 2] 5
      "sink rejected unit" [Except.ok 9] (by decide) (by decide)⟩

/-- C1: the claim says a second activation checks-and-skips before
spawning; the code instead spawns unconditionally and only conditionally
records the handle (spawn-then-discard).  Evaluated at a concrete running
controller: the second setup call spawns another thread for Sub (it
appears in the spawn trace), the recorded worker is unchanged, and the
shared sink now has two live holders, i.e. two concurrent writers into one
output sink handle. -/
theorem second_activate_spawns_duplicate :
    ((setup shGood emptyState).2.1.spawned = [Stream.Sub] ∧
      ((setup shGood emptyState).1.handles Stream.Sub).isSome = true ∧
      ((setup shGood emptyState).1.outputs Stream.Sub).map
          OutputCell.extraHolders = some 1) ∧
    (setup shGood runningState).2.1.spawned = [Stream.Sub] ∧
    (setup shGood runningState).1.handles Stream.Sub =
      (setup shGood emptyState).1.handles Stream.Sub ∧
    ((setup shGood runningState).1.outputs Stream.Sub).map
        OutputCell.extraHolders = some 2 := by
  decide

/-- C3 counterexample: the claim says an unregistration rejection does not
prevent deactivate from proceeding to join the recorded workers.  At a
concrete running controller whose registry rejects the unregistration,
tear_down surfaces the rejection but returns before any join: the worker
registry still holds the recorded worker (joining drains it). -/
theorem unregister_reject_cex :
    (tear_down shRemoveReject runningState).2 =
        some "Failed to shutdown RTSP Path path-sub: still in use" ∧
      ((tear_down shRemoveReject runningState).1.handles Stream.Sub).isSome =
        true := by
  decide

/-- C5 counterexample: the claim says that after deactivate returns, for
every controller state, the worker registry is empty.  At a concrete
running controller whose registry rejects the unregistration, tear_down
returns with the worker registry still non-empty. -/
theorem deactivate_worker_registry_cex :
    (tear_down shRemoveReject runningState).1.handlesEmpty = false := by
  decide

/-- The join loop preserves the token, the key set of the output registry
and the underlying sink values, and never adds a worker. -/
theorem joinDrain_frame (l : List Stream) :
    ∀ s : Streaming,
      (joinDrain s l).1.abortLive = s.abortLive ∧
        (∀ st, ((joinDrain s l).1.outputs st).isSome = (s.outputs st).isSome) ∧
        (∀ st, s.handles st = Option.none →
          (joinDrain s l).1.handles st = Option.none) := by
  induction l with
  | nil => intro s; exact ⟨rfl, fun _ => rfl, fun _ h => h⟩
  | cons a rest ih =>
    intro s
    cases hh : s.handles a with
    | none =>
      simp only [joinDrain, hh]
      exact ih s
    | some w =>
      cases ho : w.outcome with
      | ok =>
        simp only [joinDrain, hh, ho]
        have h2 := ih (joinStep s a)
        refine ⟨h2.1, fun st => ?_, fun st h => ?_⟩
        · rw [h2.2.1 st]
          simp only [joinStep, decHolders]
          split <;> simp
        · refine h2.2.2 st ?_
          simp only [joinStep]
          split <;> simp [h]
      | err e =>
        simp only [joinDrain, hh, ho]
        refine ⟨rfl, fun st => ?_, fun _ _ => rfl⟩
        simp only [dropHandles, joinStep, decHolders]
        split <;> simp
      | panicked =>
        simp only [joinDrain, hh, ho]
        refine ⟨rfl, fun st => ?_, fun _ _ => rfl⟩
        simp only [dropHandles, joinStep, decHolders]
        split <;> simp

/-- Running the join loop over the full iteration order leaves the worker
registry empty: every visited worker is removed, and an early failure
return drops the rest of the drain, which also clears the registry. -/
theorem joinDrain_clears (l : List Stream) :
    ∀ (s : Streaming) (st : Stream), st ∈ l →
      (joinDrain s l).1.handles st = Option.none := by
  induction l with
  | nil => intro s st h; cases h
  | cons a rest ih =>
    intro s st hmem
    cases hh : s.handles a with
    | none =>
      simp only [joinDrain, hh]
      rcases List.mem_cons.mp hmem with rfl | hmem2
      · exact (joinDrain_frame rest s).2.2 st hh
      · exact ih s st hmem2
    | some w =>
      cases ho : w.outcome with
      | ok =>
        simp only [joinDrain, hh, ho]
        rcases List.mem_cons.mp hmem with rfl | hmem2
        · refine (joinDrain_frame rest _).2.2 st ?_
          simp [joinStep]
        · exact ih _ st hmem2
      | err e => simp only [joinDrain, hh, ho]; rfl
      | panicked => simp only [joinDrain, hh, ho]; rfl

/-- C5 amended: after deactivate returns, is_running is false and the
output registry key set is unchanged; the worker registry is empty
whenever the path unregistration did not fail (in particular after every
successful deactivate).  When the unregistration is rejected, tear_down
returns before the joins and the worker registry is left as it was (see
the counterexample). -/
theorem tear_down_frame (sh : Shared) (s : Streaming) :
    is_running (tear_down sh s).1 = false ∧
      (∀ st, ((tear_down sh s).1.outputs st).isSome = (s.outputs st).isSome) ∧
      (removeLoop sh sh.getAllPaths = Option.none →
        ∀ st, (tear_down sh s).1.handles st = Option.none) := by
  have habort : (tear_down sh s).1.abortLive = false := by
    unfold tear_down
    split
    · rfl
    · split
      · rfl
      · exact (joinDrain_frame streamOrder _).1
  refine ⟨?_, ?_, ?_⟩
  · simp [is_running, habort]
  · intro st
    unfold tear_down
    split
    · rfl
    · split
      · rfl
      · exact (joinDrain_frame streamOrder _).2.1 st
  · intro hro st
    unfold tear_down
    split
    · rename_i hempty
      have h2 : (s.handles st).isNone = true := by
        have h3 := List.all_eq_true.mp hempty st (mem_streamOrder st)
        exact h3
      simpa [Option.isNone_iff_eq_none] using h2
    · split
      · rename_i heq
        rw [hro] at heq
        cases heq
      · exact joinDrain_clears streamOrder _ st (mem_streamOrder st)

theorem tear_down_frame_witness :
    is_running (tear_down shGood runningState).1 = false ∧
      (∀ st,
        ((tear_down shGood runningState).1.outputs st).isSome =
          (runningState.outputs st).isSome) ∧
      (∀ st, (tear_down shGood runningState).1.handles st = Option.none) :=
  ⟨(tear_down_frame shGood runningState).1,
    (tear_down_frame shGood runningState).2.1,
    (tear_down_frame shGood runningState).2.2 (by decide)⟩

/-- C3 amended: when workers are recorded and the registry rejects the
unregistration of some path, that rejection is surfaced to the caller as
the error of deactivate, but deactivate short-circuits: it returns at once
and does not proceed to join the recorded workers (the worker registry is
returned untouched; the cancellation token was already aborted). -/
theorem unregister_reject_short_circuits (sh : Shared) (s : Streaming)
    (hne : s.handlesEmpty = false) (p e : String)
    (hrej : removeLoop sh sh.getAllPaths = some (p, e)) :
    (tear_down sh s).2 = some (removeErrMsg p e) ∧
      (∀ st, (tear_down sh s).1.handles st = s.handles st) ∧
      (tear_down sh s).1.abortLive = false := by
  have hne2 : Streaming.handlesEmpty { s with abortLive := false } = false := hne
  unfold tear_down
  simp [hne2, hrej]

theorem unregister_reject_short_circuits_witness :
    runningState.handlesEmpty = false ∧
      ((tear_down shRemoveReject runningState).2 =
          some (removeErrMsg "path-sub" "still in use") ∧
        (∀ st,
          (tear_down shRemoveReject runningState).1.handles st =
            runningState.handles st) ∧
        (tear_down shRemoveReject runningState).1.abortLive = false) :=
  ⟨by decide,
    unregister_reject_short_circuits shRemoveReject runningState (by decide)
      "path-sub" "still in use" (by decide)⟩

/-- If the registry accepts every stream in the list, the creation loop
completes without error and leaves other keys untouched. -/
theorem createOutputs_accepted (sh : Shared) (ps : PausedSources)
    (l : List Stream) :
    ∀ outs, (∀ y ∈ l, addOk sh y = true) →
      (createOutputs sh ps outs l).2.2 = Option.none ∧
        ∀ x, x ∉ l → (createOutputs sh ps outs l).1 x = outs x := by
  induction l with
  | nil => intro outs _; exact ⟨rfl, fun _ _ => rfl⟩
  | cons y rest ih =>
    intro outs h
    have hmemtail : ∀ z ∈ rest, addOk sh z = true :=
      fun z hz => h z (List.mem_cons_of_mem y hz)
    cases hy : outs y with
    | some c =>
      simp only [createOutputs, hy]
      have h2 := ih outs hmemtail
      exact ⟨h2.1, fun x hx => h2.2 x fun hc => hx (List.mem_cons_of_mem y hc)⟩
    | none =>
      have hOk := h y (List.mem_cons_self y rest)
      cases hadd : sh.addStream (sh.getPaths y) sh.permittedUsers with
      | error e => simp [addOk, hadd] at hOk
      | ok o =>
        simp only [createOutputs, hy, hadd]
        have h2 :=
          ih (mapUpdate outs y { out := { o with pausedSource := some ps } })
            hmemtail
        refine ⟨h2.1, fun x hx => ?_⟩
        have hxy : x ≠ y := fun hEq => hx (hEq ▸ List.mem_cons_self y rest)
        have h3 := h2.2 x fun hc => hx (List.mem_cons_of_mem y hc)
        simpa [mapUpdate, hxy] using h3

/-- If the registry accepts every stream before the offending one and
rejects the offending one, the creation loop stops with exactly that
rejection. -/
theorem createOutputs_reject (sh : Shared) (ps : PausedSources)
    (pre : List Stream) (st : Stream) (post : List Stream) (e : String) :
    ∀ outs, (∀ y ∈ pre, addOk sh y = true) → outs st = Option.none →
      st ∉ pre →
      sh.addStream (sh.getPaths st) sh.permittedUsers = Except.error e →
      (createOutputs sh ps outs (pre ++ st :: post)).2.2 = some e := by
  induction pre with
  | nil =>
    intro outs _ hst _ hbad
    simp only [List.nil_append, createOutputs, hst, hbad]
  | cons y rest ih =>
    intro outs hpre hst hstpre hbad
    have hys : st ≠ y := fun hEq => hstpre (hEq ▸ List.mem_cons_self y rest)
    have hpretail : ∀ z ∈ rest, addOk sh z = true :=
      fun z hz => hpre z (List.mem_cons_of_mem y hz)
    have hstrest : st ∉ rest := fun hc => hstpre (List.mem_cons_of_mem y hc)
    cases hy : outs y with
    | some c =>
      simp only [List.cons_append, createOutputs, hy]
      exact ih outs hpretail hst hstrest hbad
    | none =>
      have hOk := hpre y (List.mem_cons_self y rest)
      cases hadd : sh.addStream (sh.getPaths y) sh.permittedUsers with
      | error e2 => simp [addOk, hadd] at hOk
      | ok o =>
        simp only [List.cons_append, createOutputs, hy, hadd]
        have hst2 :
            mapUpdate outs y { out := { o with pausedSource := some ps } } st =
              Option.none := by
          simp [mapUpdate, hys, hst]
        exact ih _ hpretail hst2 hstrest hbad

/-- C2: starting from an empty output registry with a recognized pause
mode, if the streaming-server registry rejects some configured stream
(every stream before it being accepted), setup fails carrying exactly the
registry's rejection (the unwrap panic wraps it verbatim) and no worker
thread is spawned for any sub-stream. -/
theorem registry_reject_no_worker (sh : Shared) (s : Streaming)
    (ps : PausedSources) (pre : List Stream) (st : Stream) (post : List Stream)
    (e : String)
    (houts : ∀ x, s.outputs x = Option.none)
    (hmode : resolvePausedSource sh.pauseMode = some ps)
    (hstreams : sh.streams = pre ++ st :: post)
    (hpre : ∀ y ∈ pre, addOk sh y = true)
    (hstpre : st ∉ pre)
    (hbad : sh.addStream (sh.getPaths st) sh.permittedUsers = Except.error e) :
    (setup sh s).2.2 = some (SetupErr.panicUnwrap e) ∧
      (setup sh s).2.1.spawned = [] := by
  have hempty : Streaming.outputsEmpty { s with abortLive := true } = true := by
    simp [Streaming.outputsEmpty, streamOrder, houts]
  have hc :=
    createOutputs_reject sh ps pre st post e s.outputs hpre (houts st) hstpre
      hbad
  rw [← hstreams] at hc
  simp [setup, setupPhase1, hempty, hmode, hc]

theorem registry_reject_no_worker_witness :
    (∀ x, emptyState.outputs x = Option.none) ∧
      ((setup shReject emptyState).2.2 =
          some (SetupErr.panicUnwrap "add rejected: path-sub") ∧
        (setup shReject emptyState).2.1.spawned = []) :=
  ⟨fun _ => rfl,
    registry_reject_no_worker shReject emptyState PausedSources.None []
      Stream.Sub [] "add rejected: path-sub" (fun _ => rfl) (by decide) rfl
      (by simp) (by simp) rfl⟩

/-- After an error-free creation loop, an output exists exactly for the
visited streams and the keys already present. -/
theorem createOutputs_keys (sh : Shared) (ps : PausedSources)
    (l : List Stream) :
    ∀ outs, (createOutputs sh ps outs l).2.2 = Option.none →
      ∀ x, (((createOutputs sh ps outs l).1 x).isSome = true ↔
        (x ∈ l ∨ (outs x).isSome = true)) := by
  induction l with
  | nil =>
    intro outs _ x
    simp [createOutputs]
  | cons y rest ih =>
    intro outs h x
    cases hy : outs y with
    | some c =>
      simp only [createOutputs, hy] at h ⊢
      rw [ih outs h x]
      by_cases hx : x = y
      · subst hx; simp [hy]
      · simp [hx]
    | none =>
      cases hadd : sh.addStream (sh.getPaths y) sh.permittedUsers with
      | error e => simp [createOutputs, hy, hadd] at h
      | ok o =>
        simp only [createOutputs, hy, hadd] at h ⊢
        rw [ih (mapUpdate outs y { out := { o with pausedSource := some ps } })
          h x]
        by_cases hx : x = y
        · subst hx; simp [mapUpdate]
        · simp [mapUpdate, hx]

/-- After an error-free spawn loop: the worker registry holds, for every
visited stream with an output, the previously recorded worker if any, else
the freshly spawned one; all other slots, the output key set and the token
are unchanged. -/
theorem spawnLoop_ok (sh : Shared) (l : List Stream) :
    ∀ s : Streaming, (spawnLoop sh s l).2.2 = Option.none →
      (∀ x,
        (spawnLoop sh s l).1.handles x =
          if x ∈ l ∧ (s.outputs x).isSome = true then
            some ((s.handles x).getD
              { stream := x, finished := false, outcome := sh.workerOutcome x })
          else s.handles x) ∧
      (∀ x, ((spawnLoop sh s l).1.outputs x).isSome = (s.outputs x).isSome) ∧
      (spawnLoop sh s l).1.abortLive = s.abortLive := by
  induction l with
  | nil =>
    intro s _
    exact ⟨fun x => by simp [spawnLoop], fun _ => rfl, rfl⟩
  | cons st rest ih =>
    intro s h
    cases hy : s.outputs st with
    | none =>
      simp only [spawnLoop, hy] at h ⊢
      have h2 := ih s h
      refine ⟨fun x => ?_, h2.2.1, h2.2.2⟩
      rw [h2.1 x]
      by_cases hx : x = st
      · subst hx; simp [hy]
      · simp [hx]
    | some cell =>
      cases hsis : sh.setInputSource cell.out InputMode.Live with
      | error e => simp [spawnLoop, hy, hsis] at h
      | ok newOut =>
        simp only [spawnLoop, hy, hsis] at h ⊢
        have h2 := ih (spawnStep sh s st cell newOut) h
        refine ⟨fun x => ?_, fun x => ?_, ?_⟩
        · rw [h2.1 x]
          by_cases hx : x = st
          · subst hx
            by_cases hmem : x ∈ rest
            · simp [spawnStep, mapUpdate, hmem, hy]
            · simp [spawnStep, mapUpdate, hmem, hy]
          · simp [spawnStep, mapUpdate, hx]
        · rw [h2.2.1 x]
          by_cases hx : x = st
          · subst hx; simp [spawnStep, mapUpdate, hy]
          · simp [spawnStep, mapUpdate, hx]
        · rw [h2.2.2]; rfl

/-- A worker registry whose entries are all absent or unfinished passes
the is_running termination scan. -/
theorem all_not_finished_of_fresh (s2 : Streaming)
    (h : ∀ st, s2.handles st = Option.none ∨
      ∃ w, s2.handles st = some w ∧ w.finished = false) :
    (streamOrder.all fun st =>
      match s2.handles st with
      | some w => !w.finished
      | Option.none => true) = true := by
  rw [List.all_eq_true]
  intro st _
  rcases h st with hv | ⟨w, hv, hw⟩
  · simp [hv]
  · simp [hv, hw]

/-- C6: from a controller with empty worker and output registries, a
successful activate leaves the worker registry keyed exactly by the
configured sub-stream set and is_running true. -/
theorem activate_worker_keys (sh : Shared) (s : Streaming)
    (hhandles : ∀ st, s.handles st = Option.none)
    (houts : ∀ st, s.outputs st = Option.none)
    (hsucc : (setup sh s).2.2 = Option.none) :
    (∀ st, (((setup sh s).1.handles st).isSome = true ↔ st ∈ sh.streams)) ∧
      is_running (setup sh s).1 = true := by
  have hempty : Streaming.outputsEmpty { s with abortLive := true } = true := by
    simp [Streaming.outputsEmpty, streamOrder, houts]
  cases hres : resolvePausedSource sh.pauseMode with
  | none =>
    rw [show (setup sh s).2.2 = some SetupErr.panicUnreachable by
      simp [setup, setupPhase1, hempty, hres]] at hsucc
    cases hsucc
  | some ps =>
    cases hco : (createOutputs sh ps s.outputs sh.streams).2.2 with
    | some e =>
      rw [show (setup sh s).2.2 = some (SetupErr.panicUnwrap e) by
        simp [setup, setupPhase1, hempty, hres, hco]] at hsucc
      cases hsucc
    | none =>
      have hs1 :
          setup sh s =
            (match
              spawnLoop sh
                { s with
                  abortLive := true,
                  outputs := (createOutputs sh ps s.outputs sh.streams).1 }
                streamOrder with
            | (s2, sp, r) =>
              (s2,
                { spawned := sp,
                  registered := (createOutputs sh ps s.outputs sh.streams).2.1 },
                r)) := by
        simp [setup, setupPhase1, hempty, hres, hco]
      have hkeys := createOutputs_keys sh ps sh.streams s.outputs hco
      rw [hs1] at hsucc ⊢
      have hsl := spawnLoop_ok sh streamOrder _ hsucc
      constructor
      · intro st
        rw [hsl.1 st]
        by_cases hmem : st ∈ sh.streams
        · have hin :
              ((createOutputs sh ps s.outputs sh.streams).1 st).isSome = true :=
            (hkeys st).mpr (Or.inl hmem)
          simp [mem_streamOrder st, hin, hmem]
        · have hin :
              ¬ ((createOutputs sh ps s.outputs sh.streams).1 st).isSome =
                true := by
            intro hc
            rcases (hkeys st).mp hc with h1 | h2
            · exact hmem h1
            · rw [houts st] at h2; cases h2
          simp [hin, hhandles st, hmem]
      · unfold is_running
        rw [hsl.2.2]
        have hfin := all_not_finished_of_fresh _ fun st => by
          rw [hsl.1 st]
          split
          · exact Or.inr ⟨_, rfl, by simp [hhandles st]⟩
          · exact Or.inl (hhandles st)
        rw [hfin]
        rfl

theorem activate_worker_keys_witness :
    (∀ st, emptyState.handles st = Option.none) ∧
      (setup shGood emptyState).2.2 = Option.none ∧
      ((∀ st,
          (((setup shGood emptyState).1.handles st).isSome = true ↔
            st ∈ shGood.streams)) ∧
        is_running (setup shGood emptyState).1 = true) :=
  ⟨fun _ => rfl, by decide,
    activate_worker_keys shGood emptyState (fun _ => rfl) (fun _ => rfl)
      (by decide)⟩

/-- When every recorded worker terminates cleanly, the join loop reports
no failure, removes exactly the visited workers and releases one holder of
the sink of every joined worker. -/
theorem joinDrain_ok (l : List Stream) :
    ∀ s : Streaming,
      (∀ st w, s.handles st = some w → w.outcome = JoinOutcome.ok) →
      (joinDrain s l).2 = Option.none ∧
        (∀ st, (joinDrain s l).1.handles st =
          if st ∈ l then Option.none else s.handles st) ∧
        (∀ st, (joinDrain s l).1.outputs st =
          if st ∈ l ∧ (s.handles st).isSome = true then
            (s.outputs st).map
              (fun c => { out := c.out, extraHolders := c.extraHolders - 1 })
          else s.outputs st) ∧
        (joinDrain s l).1.abortLive = s.abortLive := by
  induction l with
  | nil =>
    intro s _
    exact ⟨rfl, fun st => by simp [joinDrain], fun st => by simp [joinDrain],
      rfl⟩
  | cons a rest ih =>
    intro s h
    cases hh : s.handles a with
    | none =>
      simp only [joinDrain, hh]
      have h2 := ih s h
      refine ⟨h2.1, fun st => ?_, fun st => ?_, h2.2.2.2⟩
      · rw [h2.2.1 st]
        by_cases hx : st = a
        · subst hx; simp [hh]
        · simp [hx]
      · rw [h2.2.2.1 st]
        by_cases hx : st = a
        · subst hx; simp [hh]
        · simp [hx]
    | some w =>
      have ho := h a w hh
      simp only [joinDrain, hh, ho]
      have h2 := ih (joinStep s a) fun st w2 hw2 => by
        by_cases hx : st = a
        · subst hx; simp [joinStep] at hw2
        · exact h st w2 (by simpa [joinStep, hx] using hw2)
      refine ⟨h2.1, fun st => ?_, fun st => ?_, by rw [h2.2.2.2]; rfl⟩
      · rw [h2.2.1 st]
        by_cases hx : st = a
        · subst hx; simp [joinStep]
        · simp [joinStep, hx]
      · rw [h2.2.2.1 st]
        by_cases hx : st = a
        · subst hx; simp [joinStep, decHolders, hh]
        · simp [joinStep, decHolders, hx]

/-- When every present cell has no extra holder, the unwrap loop succeeds
and yields the underlying sinks of the visited keys. -/
theorem unwrapDrain_ok (l : List Stream) :
    ∀ outs : Stream → Option OutputCell,
      (∀ st ∈ l, ∀ cell, outs st = some cell → cell.extraHolders = 0) →
      unwrapDrain outs l =
        Except.ok fun st =>
          if st ∈ l then (outs st).map OutputCell.out else Option.none := by
  induction l with
  | nil =>
    intro outs _
    simp [unwrapDrain]
  | cons a rest ih =>
    intro outs h
    have htail : ∀ st ∈ rest, ∀ cell, outs st = some cell →
        cell.extraHolders = 0 :=
      fun z hz => h z (List.mem_cons_of_mem a hz)
    cases ha : outs a with
    | none =>
      simp only [unwrapDrain, ha]
      rw [ih outs htail]
      refine congrArg Except.ok (funext fun st => ?_)
      by_cases hx : st = a
      · subst hx; simp [ha]
      · simp [hx]
    | some cell =>
      have h0 := h a (List.mem_cons_self a rest) cell ha
      simp only [unwrapDrain, ha, h0, if_pos]
      rw [ih outs htail]
      refine congrArg Except.ok (funext fun st => ?_)
      by_cases hx : st = a
      · subst hx; simp [mapUpdate, ha]
      · simp [mapUpdate, hx]

/-- If some visited cell still has an extra holder, the unwrap loop fails
with the ARC error. -/
theorem unwrapDrain_err (l : List Stream) :
    ∀ (outs : Stream → Option OutputCell) (st : Stream) (cell : OutputCell),
      st ∈ l → outs st = some cell → cell.extraHolders ≠ 0 →
      unwrapDrain outs l = Except.error "Failed to unwrap ARC" := by
  induction l with
  | nil => intro _ _ _ h; cases h
  | cons a rest ih =>
    intro outs st cell hmem hc hnz
    cases ha : outs a with
    | none =>
      have hx : st ≠ a := fun hEq => by rw [hEq, ha] at hc; cases hc
      have hmem2 : st ∈ rest := by
        rcases List.mem_cons.mp hmem with hEq | h2
        · exact absurd hEq hx
        · exact h2
      simp only [unwrapDrain, ha]
      exact ih outs st cell hmem2 hc hnz
    | some cellA =>
      by_cases h0 : cellA.extraHolders = 0
      · have hx : st ≠ a := by
          intro hEq
          rw [hEq, ha] at hc
          injection hc with hcc
          rw [← hcc] at hnz
          exact hnz h0
        have hmem2 : st ∈ rest := by
          rcases List.mem_cons.mp hmem with hEq | h2
          · exact absurd hEq hx
          · exact h2
        simp only [unwrapDrain, ha, h0, if_pos]
        rw [ih outs st cell hmem2 hc hnz]
      · simp [unwrapDrain, ha, h0]

/-- C4: for every controller whose recorded workers all terminate cleanly,
take_outputs joins and drains them and then: if no other holder of any
shared sink remains after the joins, it returns exclusively owned sinks
for exactly the previously registered keys and leaves both registries
empty; if some other holder remains, it fails with the reported ARC error
(still a returned error, not a block or a panic) and the registries are
likewise drained. -/
theorem take_outputs_spec (s : Streaming)
    (hok : ∀ st w, s.handles st = some w → w.outcome = JoinOutcome.ok) :
    ((∀ st, postJoinHolders s st = 0) →
      (take_outputs s).2 =
        Except.ok (fun st => (s.outputs st).map OutputCell.out) ∧
      (∀ st, (take_outputs s).1.handles st = Option.none) ∧
      (∀ st, (take_outputs s).1.outputs st = Option.none)) ∧
    ((∃ st, postJoinHolders s st ≠ 0) →
      (take_outputs s).2 = Except.error "Failed to unwrap ARC" ∧
      (∀ st, (take_outputs s).1.handles st = Option.none) ∧
      (∀ st, (take_outputs s).1.outputs st = Option.none)) := by
  have hjd :=
    joinDrain_ok streamOrder { s with abortLive := false } hok
  have heq :
      joinDrain { s with abortLive := false } streamOrder =
        ((joinDrain { s with abortLive := false } streamOrder).1,
          Option.none) := by
    rw [← hjd.1]
  have hto2 :
      (take_outputs s).2 =
        unwrapDrain
          (joinDrain { s with abortLive := false } streamOrder).1.outputs
          streamOrder := by
    unfold take_outputs
    rw [heq]
  have hto1h : ∀ st,
      (take_outputs s).1.handles st =
        (joinDrain { s with abortLive := false } streamOrder).1.handles st := by
    intro st
    unfold take_outputs
    rw [heq]
  have hto1o : ∀ st, (take_outputs s).1.outputs st = Option.none := by
    intro st
    unfold take_outputs
    rw [heq]
  have hcell : ∀ st,
      (joinDrain { s with abortLive := false } streamOrder).1.outputs st =
        if (s.handles st).isSome = true then
          (s.outputs st).map
            (fun c => { out := c.out, extraHolders := c.extraHolders - 1 })
        else s.outputs st := by
    intro st
    rw [hjd.2.2.1 st]
    simp [mem_streamOrder st]
  constructor
  · intro hall
    refine ⟨?_, fun st => ?_, fun st => ?_⟩
    · rw [hto2]
      have hzero : ∀ st ∈ streamOrder, ∀ cell,
          (joinDrain { s with abortLive := false } streamOrder).1.outputs st =
              some cell →
            cell.extraHolders = 0 := by
        intro st _ cell hc
        rw [hcell st] at hc
        have hp := hall st
        unfold postJoinHolders at hp
        by_cases hh : (s.handles st).isSome = true
        · rw [if_pos hh] at hc
          cases hs : s.outputs st with
          | none => rw [hs] at hc; cases hc
          | some c =>
            rw [hs] at hc hp
            injection hc with hcc
            rw [← hcc]
            simpa [hh] using hp
        · rw [if_neg hh] at hc
          cases hs : s.outputs st with
          | none => rw [hs] at hc; cases hc
          | some c =>
            rw [hs] at hc hp
            injection hc with hcc
            rw [← hcc]
            simpa [hh] using hp
      rw [unwrapDrain_ok streamOrder _ hzero]
      refine congrArg Except.ok (funext fun st => ?_)
      rw [if_pos (mem_streamOrder st), hcell st]
      by_cases hh : (s.handles st).isSome = true
      · rw [if_pos hh]
        cases hs : s.outputs st <;> simp
      · rw [if_neg hh]
    · rw [hto1h st]
      exact (hjd.2.1 st).trans (if_pos (mem_streamOrder st))
    · exact hto1o st
  · rintro ⟨st0, hnz⟩
    have hc0 : ∃ cell,
        (joinDrain { s with abortLive := false } streamOrder).1.outputs st0 =
            some cell ∧
          cell.extraHolders ≠ 0 := by
      unfold postJoinHolders at hnz
      cases hs : s.outputs st0 with
      | none => rw [hs] at hnz; exact absurd rfl hnz
      | some c =>
        rw [hs] at hnz
        rw [hcell st0]
        by_cases hh : (s.handles st0).isSome = true
        · refine ⟨_, by rw [if_pos hh, hs]; rfl, ?_⟩
          simpa [hh] using hnz
        · refine ⟨c, by rw [if_neg hh, hs], ?_⟩
          simpa [hh] using hnz
    obtain ⟨cell, hcs, hcnz⟩ := hc0
    refine ⟨?_, fun st => ?_, fun st => ?_⟩
    · rw [hto2]
      exact unwrapDrain_err streamOrder _ st0 cell (mem_streamOrder st0) hcs
        hcnz
    · rw [hto1h st]
      exact (hjd.2.1 st).trans (if_pos (mem_streamOrder st))
    · exact hto1o st

theorem take_outputs_spec_witness :
    (take_outputs runningState).2 =
      Except.ok (fun st => (runningState.outputs st).map OutputCell.out) := by
  have hp : ∀ st w, runningState.handles st = some w →
      w.outcome = JoinOutcome.ok := by
    intro st w h
    cases st
    · rw [show runningState.handles Stream.Main = Option.none from rfl] at h
      cases h
    · rw [show runningState.handles Stream.Sub =
          some { stream := Stream.Sub, finished := false,
                 outcome := JoinOutcome.ok } from rfl] at h
      injection h with h2
      rw [← h2]
    · rw [show runningState.handles Stream.Extn = Option.none from rfl] at h
      cases h
  exact ((take_outputs_spec runningState hp).1 (by decide)).1

/-- C8: adopting a non-empty mapping of exclusively owned sinks and then
activating resumes streaming on exactly the adopted sinks: the output
registry being non-empty, the creation branch is skipped, so no
registration call is made to the streaming-server registry, no new output
sink handle is created (the output key set is exactly the adopted one) and
a worker is recorded exactly for each adopted key. -/
theorem adopt_then_activate (sh : Shared) (m : Stream → Option GstOutputs)
    (s : Streaming)
    (hh : ∀ st, s.handles st = Option.none)
    (hm : ∃ st0, (m st0).isSome = true)
    (hok : (setup sh (insert_outputs m s)).2.2 = Option.none) :
    (setup sh (insert_outputs m s)).2.1.registered = [] ∧
      (∀ st,
        ((setup sh (insert_outputs m s)).1.outputs st).isSome =
          (m st).isSome) ∧
      (∀ st,
        ((setup sh (insert_outputs m s)).1.handles st).isSome =
          (m st).isSome) := by
  obtain ⟨st0, hst0⟩ := hm
  have hcells : ∀ st,
      ((insert_outputs m s).outputs st).isSome = (m st).isSome := by
    intro st
    simp [insert_outputs]
  have hnotempty :
      Streaming.outputsEmpty { insert_outputs m s with abortLive := true } =
        false := by
    unfold Streaming.outputsEmpty
    rw [List.all_eq_false]
    refine ⟨st0, mem_streamOrder st0, ?_⟩
    cases hm0 : m st0 with
    | none => rw [hm0] at hst0; cases hst0
    | some o =>
      have h2 : (insert_outputs m s).outputs st0 = some { out := o } := by
        simp [insert_outputs, hm0]
      simp [h2]
  have hsetup :
      setup sh (insert_outputs m s) =
        (match
          spawnLoop sh { insert_outputs m s with abortLive := true }
            streamOrder with
        | (s2, sp, r) => (s2, { spawned := sp, registered := [] }, r)) := by
    unfold setup
    rw [show setupPhase1 sh { insert_outputs m s with abortLive := true } =
        ({ insert_outputs m s with abortLive := true }, [], Option.none) from
      by simp [setupPhase1, hnotempty]]
  rw [hsetup] at hok ⊢
  have hok2 :
      (spawnLoop sh { insert_outputs m s with abortLive := true }
          streamOrder).2.2 = Option.none := hok
  have hsl := spawnLoop_ok sh streamOrder _ hok2
  refine ⟨rfl, fun st => ?_, fun st => ?_⟩
  · exact (hsl.2.1 st).trans (hcells st)
  · show ((spawnLoop sh { insert_outputs m s with abortLive := true }
        streamOrder).1.handles st).isSome = (m st).isSome
    rw [hsl.1 st]
    cases hm0 : m st with
    | none =>
      have hfalse :
          (({ insert_outputs m s with abortLive := true } :
            Streaming).outputs st).isSome = false := by
        rw [show (({ insert_outputs m s with abortLive := true } :
            Streaming).outputs st) = (insert_outputs m s).outputs st from rfl]
        rw [hcells st, hm0]
        rfl
      rw [if_neg]
      · exact (congrArg Option.isSome (hh st)).trans rfl
      · rintro ⟨-, hc⟩
        rw [hfalse] at hc
        cases hc
    | some o =>
      have htrue :
          (({ insert_outputs m s with abortLive := true } :
            Streaming).outputs st).isSome = true := by
        rw [show (({ insert_outputs m s with abortLive := true } :
            Streaming).outputs st) = (insert_outputs m s).outputs st from rfl]
        rw [hcells st, hm0]
        rfl
      rw [if_pos ⟨mem_streamOrder st, htrue⟩]
      rfl

theorem adopt_then_activate_witness :
    (setup shGood (insert_outputs adoptedMap emptyState)).2.1.registered =
        [] ∧
      (∀ st,
        ((setup shGood
              (insert_outputs adoptedMap emptyState)).1.outputs st).isSome =
          (adoptedMap st).isSome) ∧
      (∀ st,
        ((setup shGood
              (insert_outputs adoptedMap emptyState)).1.handles st).isSome =
          (adoptedMap st).isSome) :=
  adopt_then_activate shGood adoptedMap emptyState (fun _ => rfl)
    ⟨Stream.Sub, by decide⟩ (by decide)

end NeolinkStreaming
